import Mathlib

/-!
Shallow embedding of the orchestration core of the `bless-hackathon-client`
translation web app (`src/App.tsx`, the `EnhanceCard` and `LanguagePanel`
components, and `src/store/slices/wordDetailsSlice.ts`).

Modelling conventions: JavaScript strings are Lean `String`s (operating on
`String.data`, the list of characters); the JS `\s` class and
`String.prototype.trim` are approximated by `Char.isWhitespace` (the
application data only involves ASCII whitespace).  Byte values from
`Uint8Array` are `Fin 256`; the floating-point PCM samples are modelled in
`ℚ` (the decode divides integers in [-32768, 32767] by 32768, which is exact
in IEEE doubles).  React state updates are explicit state-passing; network
responses are oracle parameters (`Except`/constructor arguments), since the
server is an opaque HTTP collaborator.
-/

namespace BlessClient

/-- Constant `WORD_LIMIT` from `App.tsx`. -/
def WORD_LIMIT : Nat := 500

/-- Constant `THROTTLE_DURATION` from `App.tsx` (milliseconds). -/
def THROTTLE_DURATION : Nat := 2000

/-- Whitespace predicate embedding the JS `\s` class / `trim` set
(restricted to the ASCII whitespace the application data uses). -/
def isWs (c : Char) : Bool := c.isWhitespace

/-- Trim of a character list: drop whitespace from both ends,
embedding `String.prototype.trim`. -/
def trimChars (l : List Char) : List Char :=
  ((l.dropWhile isWs).reverse.dropWhile isWs).reverse

/-- Embeds the JS truthiness test `text.trim() === ''` (equivalently
`!text.trim()`): the string is empty or whitespace-only. -/
def trimmedEmpty (s : String) : Bool := s.data.all isWs

/-- Tokenizer accumulator: splits a character list into its maximal
whitespace-free runs. -/
def tokensAux : List Char → List Char → List (List Char)
  | [], acc => if acc.isEmpty then [] else [acc.reverse]
  | c :: cs, acc =>
      if isWs c then
        (if acc.isEmpty then tokensAux cs [] else acc.reverse :: tokensAux cs []) else
        tokensAux cs (c :: acc)

/-- Embeds `text.trim() === '' ? [] : text.trim().split(/\s+/)` from
`App.tsx`: the list of whitespace-delimited words of `text`. -/
def wsTokens (s : String) : List String :=
  (tokensAux s.data []).map (fun l => String.mk l)

/-- Word count of a text, as computed at every entry path of the source panel. -/
def countWords (s : String) : Nat := (wsTokens s).length

/-- Result of the word-limit enforcement step. -/
structure TruncResult where
  text : String
  wordCount : Nat
  truncated : Bool
deriving Repr, DecidableEq

/-- Word-limit enforcement shared by the transcription handler
(`startRecording`'s `onstop`, App.tsx lines 426-433), `handleSwapLanguages`
(lines 495-503) and `handleSourceTextChange` (lines 585-596):
if the word count exceeds `WORD_LIMIT`, keep the first `WORD_LIMIT`
whitespace-delimited tokens rejoined with single spaces
(`words.slice(0, WORD_LIMIT).join(' ')`). -/
def applyWordLimit (text : String) : TruncResult :=
  let words := wsTokens text
  let n := words.length
  if n > WORD_LIMIT then
    { text := String.intercalate " " (words.take WORD_LIMIT)
      wordCount := WORD_LIMIT
      truncated := true }
  else
    { text := text, wordCount := n, truncated := false }

/-! ### Raw PCM (`audio/L16`) decoding — `playRawPCM` inside `playAudio` -/

/-- Embeds `const signedSample = sample > 32767 ? sample - 65536 : sample;`
(App.tsx line 250): reinterpret a 16-bit unsigned value as signed. -/
def toSigned (u : Nat) : Int := if u > 32767 then (u : Int) - 65536 else (u : Int)

/-- One decoded sample from a little-endian byte pair:
`sample = (bytes[i*2+1] << 8) | bytes[i*2]`, sign-reinterpreted and
normalized by `/ 32768.0` (App.tsx lines 246-252). -/
def pcmSample (b0 b1 : Fin 256) : ℚ :=
  (toSigned (b1.val * 256 + b0.val) : ℚ) / 32768

/-- Per-pair decode loop of `playRawPCM`: consecutive byte pairs become
normalized samples (the singleton case is unreachable under the even-length
guard). -/
def decodeSamples : List (Fin 256) → List ℚ
  | [] => []
  | [_] => []
  | b0 :: b1 :: rest => pcmSample b0 b1 :: decodeSamples rest

/-- Raw-PCM decode of `playRawPCM` (App.tsx lines 217-274) applied to the
byte sequence obtained from the base64 payload: an odd byte count
(`len % 2 !== 0`) is a fatal format error — reported via a destructive
toast and playback aborted, modelled as `none`; otherwise the channel data
handed to the mono audio buffer, modelled as `some` samples. -/
def playRawPCM (bytes : List (Fin 256)) : Option (List ℚ) :=
  if bytes.length % 2 ≠ 0 then none else some (decodeSamples bytes)

/-- The 4-byte example payload `[0x00, 0x80, 0xFF, 0x7F]` from the spec. -/
def pcmExample : List (Fin 256) :=
  [⟨0x00, by norm_num⟩, ⟨0x80, by norm_num⟩, ⟨0xFF, by norm_num⟩, ⟨0x7F, by norm_num⟩]

/-! ### Translation session state and `handleTranslateText` -/

/-- React state of `App` relevant to the translation session (App.tsx
lines 48-61). -/
structure AppState where
  sourceText : String
  translatedText : String
  sourceLanguage : String
  targetLanguage : String
  sourceWordCount : Nat
  isThrottled : Bool
  isTranslating : Bool
deriving Repr, DecidableEq

/-- Observable outcome of one synchronous run of `handleTranslateText`
up to (and including) the decision whether to issue the network request. -/
inductive TranslateOutcome where
  /-- Same-language shortcut with non-blank text: translated text is set to
  a direct copy of the input text, no fetch. -/
  | sameLangCopy (text : String)
  /-- Same-language shortcut with blank text: translated text cleared, no fetch. -/
  | sameLangClear
  /-- Blank text with distinct languages: translated text cleared, no fetch. -/
  | emptyClear
  /-- Throttle window active: "Please wait" toast, no fetch. -/
  | throttledNotice
  /-- Request already in flight: silently ignored, no fetch. -/
  | inFlightIgnored
  /-- The `/api/translate-text` POST is issued with this body. -/
  | networkCall (text srcLang tgtLang : String)
deriving Repr, DecidableEq

/-- Embeds `handleTranslateText` (App.tsx lines 98-131): the three optional
arguments mirror the `options` object; `none` falls back to the component
state.  The guard order matches the source: same-language shortcut, then
empty text, then throttle, then in-flight. -/
def handleTranslateText (st : AppState) (optText optSrc optTgt : Option String) :
    TranslateOutcome :=
  let text := optText.getD st.sourceText
  let src := optSrc.getD st.sourceLanguage
  let tgt := optTgt.getD st.targetLanguage
  if src = tgt then
    (if trimmedEmpty text then .sameLangClear else .sameLangCopy text)
  else if trimmedEmpty text then .emptyClear
  else if st.isThrottled then .throttledNotice
  else if st.isTranslating then .inFlightIgnored
  else .networkCall text src tgt

/-- Whether the outcome issues the `/api/translate-text` fetch. -/
def issuesNetworkCall : TranslateOutcome → Bool
  | .networkCall _ _ _ => true
  | _ => false

/-- Whether the outcome surfaces the "Please wait / throttled" toast. -/
def showsThrottledToast : TranslateOutcome → Bool
  | .throttledNotice => true
  | _ => false

/-- Synchronous state updates performed by each `handleTranslateText`
outcome (the `networkCall` case sets `isTranslating` and `isThrottled`
before the fetch, App.tsx lines 129-130; the response itself arrives
later). -/
def applyOutcome (st : AppState) : TranslateOutcome → AppState
  | .sameLangCopy t => { st with translatedText := t }
  | .sameLangClear => { st with translatedText := "" }
  | .emptyClear => { st with translatedText := "" }
  | .throttledNotice => st
  | .inFlightIgnored => st
  | .networkCall _ _ _ => { st with isTranslating := true, isThrottled := true }

/-- Timer model of the `setTimeout` scheduled in `handleTranslateText`'s
`finally` block (App.tsx lines 160-165): `isThrottled` was set at request
start and is cleared `THROTTLE_DURATION` ms after the request completes, so
at time `now` after a completion at `completedAt` the flag reads as
follows. -/
def isThrottledAt (completedAt now : Nat) : Bool :=
  decide (now < completedAt + THROTTLE_DURATION)

/-! ### Swap, text change, transcription, language change -/

/-- Result of `handleSwapLanguages`: updated state, the outcome of the
nested `handleTranslateText` call if one was made, and whether the
word-limit toast was shown. -/
structure SwapResult where
  state : AppState
  translateCall : Option TranslateOutcome
  toastWordLimit : Bool
deriving Repr, DecidableEq

/-- Embeds `handleSwapLanguages` (App.tsx lines 484-520): exchange the two
language codes, move the translated text into the source slot re-applying
the word limit, then either call `handleTranslateText` with the post-swap
values, copy (same language) or clear (blank text). -/
def handleSwapLanguages (st : AppState) : SwapResult :=
  let newSourceLang := st.targetLanguage
  let newTargetLang := st.sourceLanguage
  let r := applyWordLimit st.translatedText
  let st1 := { st with
    sourceLanguage := newSourceLang
    targetLanguage := newTargetLang
    sourceText := r.text
    sourceWordCount := r.wordCount }
  if trimmedEmpty r.text = false ∧ newSourceLang ≠ newTargetLang then
    let o := handleTranslateText st1 (some r.text) (some newSourceLang) (some newTargetLang)
    { state := applyOutcome st1 o, translateCall := some o, toastWordLimit := r.truncated }
  else if trimmedEmpty r.text = false then
    { state := { st1 with translatedText := r.text }
      translateCall := none
      toastWordLimit := r.truncated }
  else
    { state := { st1 with translatedText := "" }
      translateCall := none
      toastWordLimit := r.truncated }

/-- Result of `handleSourceTextChange`: updated state and whether the
"Word limit reached" toast was shown. -/
structure SourceChangeResult where
  state : AppState
  toastWordLimit : Bool
deriving Repr, DecidableEq

/-- Embeds `handleSourceTextChange` (App.tsx lines 585-606): word-limit
truncation, the conditional "Word limit reached" toast
(`newText.length > sourceText.length || previousWordCount < WORD_LIMIT`),
and the translated-text side updates (clear on blank, copy on equal
languages). -/
def handleSourceTextChange (st : AppState) (newText : String) : SourceChangeResult :=
  let r := applyWordLimit newText
  let toast := r.truncated &&
    (decide (newText.length > st.sourceText.length) ||
     decide (countWords st.sourceText < WORD_LIMIT))
  let st1 := { st with sourceText := r.text, sourceWordCount := r.wordCount }
  let st2 :=
    if trimmedEmpty r.text then { st1 with translatedText := "" }
    else if st.sourceLanguage = st.targetLanguage then { st1 with translatedText := r.text }
    else st1
  { state := st2, toastWordLimit := toast }

/-- Embeds the successful branch of the speech-to-text `onstop` handler
(App.tsx lines 426-437): the transcription enters the source slot with the
word limit applied, the prior translation is cleared, and the
"Word limit reached from speech" toast fires exactly on truncation. -/
def handleTranscription (st : AppState) (transcription : String) : AppState × Bool :=
  let r := applyWordLimit transcription
  let st1 := { st with
    sourceText := r.text
    sourceWordCount := r.wordCount
    translatedText := "" }
  (st1, r.truncated)

/-- Embeds `handleSourceLanguageChange` (App.tsx lines 612-625): store the
new language then retranslate the current text with it (or clear the
translation when the source is blank). -/
def handleSourceLanguageChange (st : AppState) (lang : String) :
    AppState × Option TranslateOutcome :=
  let st1 := { st with sourceLanguage := lang }
  if trimmedEmpty st.sourceText = false then
    let o := handleTranslateText st1 (some st.sourceText) (some lang) (some st.targetLanguage)
    (applyOutcome st1 o, some o)
  else
    ({ st1 with translatedText := "" }, none)

/-- Embeds `handleTargetLanguageChange` (App.tsx lines 627-640). -/
def handleTargetLanguageChange (st : AppState) (lang : String) :
    AppState × Option TranslateOutcome :=
  let st1 := { st with targetLanguage := lang }
  if trimmedEmpty st.sourceText = false then
    let o := handleTranslateText st1 (some st.sourceText) (some st.sourceLanguage) (some lang)
    (applyOutcome st1 o, some o)
  else
    ({ st1 with translatedText := "" }, none)

/-- Whether a language-change handler actually issued the translate fetch. -/
def langChangeIssuesCall (p : AppState × Option TranslateOutcome) : Bool :=
  match p.2 with
  | some o => issuesNetworkCall o
  | none => false

/-! ### Enhancement generation — `EnhanceCard.handleGenerateEnhancement` -/

/-- React state of `EnhanceCard` relevant to enhancement generation:
the monotonically increasing `generateEnhancementRequestIdRef`, the
`processedEnhancedText` slot, the loading flag, and (as an observable
effect trace) the number of "Enhancement Error" toasts shown. -/
structure EnhanceState where
  requestId : Nat
  processedEnhancedText : Option String
  isLoadingEnhancement : Bool
  errorToastCount : Nat
deriving Repr, DecidableEq

/-- Events of the enhancement stream.  `issue` is the synchronous prefix of
`handleGenerateEnhancement` past its guards; a response event carries the
token of the request it answers.  `failure` carries the
`currentTranslatedText` captured by the request's closure, which the error
handler writes into the enhanced slot. -/
inductive EnhanceEvent where
  | issue
  | success (token : Nat) (enhancedText : String)
  | failure (token : Nat) (capturedTranslatedText : String)
deriving Repr, DecidableEq

/-- Embeds `handleGenerateEnhancement` (EnhanceCard, lines 429-476):
issuing sets loading, clears the slot and increments the token ref
(`const currentRequestId = ++generateEnhancementRequestIdRef.current`);
a response is applied only under the staleness check
`currentRequestId === generateEnhancementRequestIdRef.current`, in both the
success path, the catch block (error toast plus
`setProcessedEnhancedText(currentTranslatedText)`) and the finally block
(loading reset). -/
def enhanceStep (st : EnhanceState) : EnhanceEvent → EnhanceState
  | .issue =>
      { st with
        isLoadingEnhancement := true
        processedEnhancedText := none
        requestId := st.requestId + 1 }
  | .success tok res =>
      if tok = st.requestId then
        { st with processedEnhancedText := some res, isLoadingEnhancement := false }
      else st
  | .failure tok cap =>
      if tok = st.requestId then
        { st with
          processedEnhancedText := some cap
          isLoadingEnhancement := false
          errorToastCount := st.errorToastCount + 1 }
      else st

/-- Run of a sequence of enhancement events. -/
def enhanceRun (st : EnhanceState) (evs : List EnhanceEvent) : EnhanceState :=
  evs.foldl enhanceStep st

/-! ### Word-definition lookup and the Redux cache -/

/-- Record shape of `GetWordDetailsOutput` / the `wordDetailsSlice` cache
values. -/
structure WordDetails where
  definedWord : String
  type : String
  meaning : String
  synonyms : List String
  antonyms : List String
  ipaPronunciation : Option String
deriving Repr, DecidableEq

/-- The Redux `wordDetails.cache` (`Record<string, WordDetails>`), as an
association list: `setWordDetails` conses the new binding, and lookup takes
the first match, giving JS-object overwrite semantics. -/
abbrev WordDetailCache : Type := List (String × WordDetails)

/-- Punctuation class of `word.replace(/[.,!?;:"“”（）]/g, "")` in
`handleWordDefinition` — the same class the `LanguagePanel` tokenizer splits
on. -/
def isPunct (c : Char) : Bool :=
  c ∈ ['.', ',', '!', '?', ';', ':', '"', '“', '”', '（', '）']

/-- Embeds `word.replace(/[.,!?;:"“”（）]/g, "").trim().toLowerCase()`
(App.tsx line 524). -/
def cleanWord (w : String) : String :=
  String.mk ((trimChars (w.data.filter (fun c => !(isPunct c)))).map Char.toLower)

/-- Embeds the composite cache key `` `${cleanedWord}_${language}` ``. -/
def cacheKey (cleaned lang : String) : String := cleaned ++ "_" ++ lang

/-- Synthetic failure record built in the catch block of
`handleWordDefinition` (App.tsx lines 560-567); `desc` is the error
description. -/
def syntheticRecord (cleaned desc : String) : WordDetails :=
  { definedWord := cleaned
    type := ""
    meaning := "Could not fetch details for \"" ++ cleaned ++ "\". " ++ desc
    synonyms := []
    antonyms := []
    ipaPronunciation := some "" }

/-- Embeds the `ipaPronunciation` defaulting applied to a successful
response before display and caching (App.tsx lines 547-549): a missing
field becomes the empty string. -/
def withDefaultIpa (result : WordDetails) : WordDetails :=
  { result with ipaPronunciation := some (result.ipaPronunciation.getD "") }

/-- Observable outcome of one `handleWordDefinition` run. -/
inductive LookupOutcome where
  /-- Blank word or blank cleaned word: early return, nothing happens. -/
  | ignored
  /-- Cache hit: the cached record is shown, no network call. -/
  | cacheHit (details : WordDetails)
  /-- Cache miss, request succeeded: record shown and dispatched to the cache. -/
  | fetchedStored (details : WordDetails)
  /-- Cache miss, request failed: synthetic record shown, cache untouched. -/
  | fetchFailed (details : WordDetails)
deriving Repr, DecidableEq

/-- Embeds `handleWordDefinition` (App.tsx lines 522-572) together with the
`setWordDetails` reducer of `wordDetailsSlice.ts`: guards, normalization,
cache probe, and — on a miss — the network request, whose response is the
oracle argument (`.ok` carries the server record, `.error` the failure
description).  Successful results have a missing `ipaPronunciation`
defaulted to `""` and are stored under the same composite key; failures only
produce the synthetic record. -/
def handleWordDefinition (cache : WordDetailCache) (word lang : String)
    (response : Except String WordDetails) : LookupOutcome × WordDetailCache :=
  if trimmedEmpty word then (.ignored, cache)
  else
    let cleaned := cleanWord word
    if cleaned = "" then (.ignored, cache)
    else
      let key := cacheKey cleaned lang
      match List.lookup key cache with
      | some d => (.cacheHit d, cache)
      | none =>
          match response with
          | .ok result =>
              let stored := withDefaultIpa result
              (.fetchedStored stored, (key, stored) :: cache)
          | .error desc => (.fetchFailed (syntheticRecord cleaned desc), cache)

/-- Whether a lookup outcome issued the `/api/get-word-details` fetch. -/
def lookupNetworkCalled : LookupOutcome → Bool
  | .fetchedStored _ => true
  | .fetchFailed _ => true
  | _ => false

/-- Embeds the `isWord` test of the `LanguagePanel` clickable-word renderer
(`!/[\s.,!?;:"“”（）]+/.test(part) && part.trim().length > 0`): a clicked
word contains no whitespace and none of the punctuation class, and is
non-blank. -/
def isClickableWord (w : String) : Bool :=
  w.data.all (fun c => !(isWs c) && !(isPunct c)) && !(trimmedEmpty w)

/-! ### Concrete inputs used by counterexamples and witnesses -/

/-- A concrete server record for the word "hello". -/
def dHello : WordDetails :=
  { definedWord := "hello"
    type := "interjection"
    meaning := "a greeting"
    synonyms := ["hi"]
    antonyms := []
    ipaPronunciation := none }

/-- Character list of `n` copies of the word `w` separated by single
spaces. -/
def sepRep : Nat → List Char → List Char
  | 0, _ => []
  | 1, w => w
  | n+2, w => w ++ ' ' :: sepRep (n+1) w

/-- A 500-word text (each word "aa", 1499 characters). -/
def prevC4 : String := String.mk (sepRep 500 ['a', 'a'])

/-- A 501-word text (each word "a", 1001 characters) — over the word limit
yet shorter than `prevC4`. -/
def newC4 : String := String.mk (sepRep 501 ['a'])

/-- App state whose source panel already holds the 500-word `prevC4`. -/
def prevStateC4 : AppState :=
  { sourceText := prevC4
    translatedText := ""
    sourceLanguage := "en"
    targetLanguage := "vi"
    sourceWordCount := 500
    isThrottled := false
    isTranslating := false }

/-- Throttled state with equal source and target languages: a second
`translate()` here takes the same-language shortcut and never reaches the
throttle notice. -/
def throttledSameLangState : AppState :=
  { sourceText := "hello"
    translatedText := ""
    sourceLanguage := "en"
    targetLanguage := "en"
    sourceWordCount := 1
    isThrottled := true
    isTranslating := false }

/-- Throttled state with distinct languages and non-blank text: a language
change here is blocked by the throttle, not by the same-language shortcut or
by emptiness. -/
def throttledStateC8 : AppState :=
  { sourceText := "hello"
    translatedText := ""
    sourceLanguage := "en"
    targetLanguage := "vi"
    sourceWordCount := 1
    isThrottled := true
    isTranslating := false }

/-- The swap scenario of the spec: en→vi with translated text "xin chào",
idle and unthrottled. -/
def swapScenarioState : AppState :=
  { sourceText := "hello"
    translatedText := "xin chào"
    sourceLanguage := "en"
    targetLanguage := "vi"
    sourceWordCount := 1
    isThrottled := false
    isTranslating := false }



/-! ## Helper lemmas -/

theorem reverse_isEmpty_false (w : List Char) (hne : w ≠ []) : w.reverse.isEmpty = false := by
  cases w with
  | nil => exact absurd rfl hne
  | cons a l => simp

theorem tokensAux_token (w : List Char) (hw : w.all (fun c => !(isWs c))) :
    ∀ (rest acc : List Char), tokensAux (w ++ rest) acc = tokensAux rest (w.reverse ++ acc) := by
  induction w with
  | nil => intro rest acc; simp
  | cons c w ih =>
      intro rest acc
      simp only [List.all_cons, Bool.and_eq_true, Bool.not_eq_true'] at hw
      show tokensAux (c :: (w ++ rest)) acc = _
      simp only [tokensAux, hw.1, Bool.false_eq_true, if_false, ih hw.2]
      simp

theorem tokensAux_space (rest acc : List Char) :
    tokensAux (' ' :: rest) acc =
      if acc.isEmpty then tokensAux rest [] else acc.reverse :: tokensAux rest [] := by
  simp [tokensAux, isWs]

theorem tokensAux_all_ws : ∀ (l : List Char), l.all isWs → tokensAux l [] = [] := by
  intro l
  induction l with
  | nil => intro; rfl
  | cons c cs ih =>
      intro h
      simp only [List.all_cons, Bool.and_eq_true] at h
      simp [tokensAux, h.1, ih h.2]

theorem countWords_of_trimmedEmpty (s : String) (h : trimmedEmpty s = true) :
    countWords s = 0 := by
  unfold countWords wsTokens
  rw [tokensAux_all_ws s.data h]
  rfl

theorem tokensAux_sepRep (w : List Char) (hne : w ≠ []) (hw : w.all (fun c => !(isWs c))) :
    ∀ n, tokensAux (sepRep n w) [] = List.replicate n w
  | 0 => by simp [sepRep, tokensAux]
  | 1 => by
      show tokensAux w [] = _
      have := tokensAux_token w hw [] []
      simp only [List.append_nil] at this
      rw [this]
      simp [tokensAux, reverse_isEmpty_false w hne, List.replicate]
  | n+2 => by
      show tokensAux (w ++ ' ' :: sepRep (n+1) w) [] = _
      rw [tokensAux_token w hw _ [], List.append_nil, tokensAux_space,
        reverse_isEmpty_false w hne]
      simp only [Bool.false_eq_true, if_false, List.reverse_reverse,
        tokensAux_sepRep w hne hw (n+1)]
      rfl

theorem sepRep_length (w : List Char) :
    ∀ n, (sepRep (n+1) w).length = (n+1) * w.length + n
  | 0 => by simp [sepRep]
  | n+1 => by
      show (w ++ ' ' :: sepRep (n+1) w).length = _
      rw [List.length_append, List.length_cons, sepRep_length w n]
      ring

theorem countWords_prevC4 : countWords prevC4 = 500 := by
  show ((tokensAux (sepRep 500 ['a', 'a']) []).map (fun l => String.mk l)).length = 500
  rw [tokensAux_sepRep ['a', 'a'] (by simp) (by decide) 500,
    List.length_map, List.length_replicate]

theorem countWords_newC4 : countWords newC4 = 501 := by
  show ((tokensAux (sepRep 501 ['a']) []).map (fun l => String.mk l)).length = 501
  rw [tokensAux_sepRep ['a'] (by simp) (by decide) 501,
    List.length_map, List.length_replicate]

theorem length_prevC4 : prevC4.length = 1499 := by
  show (sepRep (499+1) ['a', 'a']).length = 1499
  rw [sepRep_length]
  norm_num

theorem length_newC4 : newC4.length = 1001 := by
  show (sepRep (500+1) ['a']).length = 1001
  rw [sepRep_length]
  norm_num

/-! ## PCM lemmas -/

theorem decodeSamples_length : ∀ l : List (Fin 256), (decodeSamples l).length = l.length / 2
  | [] => rfl
  | [x] => by
      have h : decodeSamples [x] = [] := rfl
      rw [h]
      simp
  | _ :: _ :: rest => by
      show (decodeSamples rest).length + 1 = _
      rw [decodeSamples_length rest]
      show rest.length / 2 + 1 = (rest.length + 1 + 1) / 2
      omega

theorem decodeSamples_get? :
    ∀ (i : Nat) (l : List (Fin 256)) (b0 b1 : Fin 256),
      l.get? (2*i) = some b0 → l.get? (2*i+1) = some b1 →
      (decodeSamples l).get? i = some (pcmSample b0 b1)
  | 0, [], b0, b1 => by intro h0 _; simp at h0
  | 0, [x], b0, b1 => by intro _ h1; simp at h1
  | 0, x :: y :: r, b0, b1 => by
      intro h0 h1
      simp only [Nat.mul_zero, Nat.zero_add, List.get?] at h0 h1
      rw [Option.some_inj] at h0 h1
      subst h0; subst h1
      rfl
  | i+1, [], b0, b1 => by intro h0 _; simp at h0
  | i+1, [x], b0, b1 => by
      intro h0 _
      rw [show 2*(i+1) = (2*i+1)+1 by ring] at h0
      simp [List.get?] at h0
  | i+1, x :: y :: r, b0, b1 => by
      intro h0 h1
      rw [show 2*(i+1) = (2*i)+1+1 by ring] at h0
      rw [show 2*(i+1)+1 = (2*i+1)+1+1 by ring] at h1
      simp only [List.get?] at h0 h1
      show (decodeSamples r).get? i = _
      exact decodeSamples_get? i r b0 b1 h0 h1

theorem toSigned_bounds (u : Nat) (h : u ≤ 65535) :
    -32768 ≤ toSigned u ∧ toSigned u ≤ 32767 := by
  unfold toSigned
  split <;> omega

theorem pcmSample_range (b0 b1 : Fin 256) : -1 ≤ pcmSample b0 b1 ∧ pcmSample b0 b1 ≤ 1 := by
  have hu : b1.val * 256 + b0.val ≤ 65535 := by
    have h0 := b0.isLt
    have h1 := b1.isLt
    omega
  obtain ⟨hl, hr⟩ := toSigned_bounds _ hu
  unfold pcmSample
  constructor
  · rw [le_div_iff₀ (by norm_num : (0:ℚ) < 32768)]
    have : ((-32768 : Int) : ℚ) ≤ ((toSigned (b1.val * 256 + b0.val) : Int) : ℚ) := by
      exact_mod_cast hl
    push_cast at this ⊢
    linarith
  · rw [div_le_iff₀ (by norm_num : (0:ℚ) < 32768)]
    have : ((toSigned (b1.val * 256 + b0.val) : Int) : ℚ) ≤ ((32767 : Int) : ℚ) := by
      exact_mod_cast hr
    push_cast at this ⊢
    linarith

theorem decodeSamples_mem_range :
    ∀ (l : List (Fin 256)) (q : ℚ), q ∈ decodeSamples l → -1 ≤ q ∧ q ≤ 1
  | [], q => by intro h; simp [decodeSamples] at h
  | [_], q => by intro h; simp [decodeSamples] at h
  | b0 :: b1 :: r, q => by
      intro h
      rw [show decodeSamples (b0 :: b1 :: r) = pcmSample b0 b1 :: decodeSamples r from rfl,
        List.mem_cons] at h
      rcases h with h | h
      · subst h; exact pcmSample_range b0 b1
      · exact decodeSamples_mem_range r q h

/-- C1: the raw-PCM decode of `playAudio` fails with a reported fatal format
error (and no playback) exactly when the decoded byte count is odd;
otherwise each consecutive little-endian byte pair becomes the 16-bit value
`b1*256 + b0`, reinterpreted as negative above 32767 by subtracting 65536
and normalized by dividing by 32768, yielding samples in [-1, 1]; the 4-byte
payload [0x00, 0x80, 0xFF, 0x7F] decodes to [-1, 32767/32768]. -/
theorem pcm_decode_correct (bytes : List (Fin 256)) :
    (playRawPCM bytes = none ↔ bytes.length % 2 = 1) ∧
    (∀ samples, playRawPCM bytes = some samples →
      samples.length = bytes.length / 2 ∧
      (∀ (i : Nat) (b0 b1 : Fin 256),
        bytes.get? (2*i) = some b0 → bytes.get? (2*i+1) = some b1 →
        samples.get? i = some ((toSigned (b1.val * 256 + b0.val) : ℚ) / 32768)) ∧
      (∀ q ∈ samples, -1 ≤ q ∧ q ≤ 1)) ∧
    playRawPCM pcmExample = some [-1, 32767/32768] := by
  refine ⟨?_, ?_, ?_⟩
  · unfold playRawPCM
    constructor
    · intro h
      by_cases hm : bytes.length % 2 ≠ 0
      · omega
      · rw [if_neg hm] at h; exact absurd h (by simp)
    · intro h
      rw [if_pos (by omega)]
  · intro samples h
    unfold playRawPCM at h
    by_cases hm : bytes.length % 2 ≠ 0
    · rw [if_pos hm] at h; exact absurd h (by simp)
    · rw [if_neg hm, Option.some_inj] at h
      subst h
      exact ⟨decodeSamples_length bytes,
        fun i b0 b1 h0 h1 => decodeSamples_get? i bytes b0 b1 h0 h1,
        fun q hq => decodeSamples_mem_range bytes q hq⟩
  · norm_num [playRawPCM, pcmExample, decodeSamples, pcmSample, toSigned]

/-- Witness for C1: the theorem instantiated at the concrete 4-byte payload,
with every hypothesis discharged there. -/
theorem pcm_decode_correct_witness :
    ([(-1 : ℚ), 32767/32768].length = pcmExample.length / 2) ∧
    ([(-1 : ℚ), 32767/32768].get? 0 =
      some ((toSigned ((⟨0x80, by norm_num⟩ : Fin 256).val * 256 +
        (⟨0x00, by norm_num⟩ : Fin 256).val) : ℚ) / 32768)) ∧
    (-1 ≤ (-1 : ℚ) ∧ (-1 : ℚ) ≤ 1) := by
  have h := (pcm_decode_correct pcmExample).2.1 [-1, 32767/32768]
    ((pcm_decode_correct pcmExample).2.2)
  exact ⟨h.1, h.2.1 0 ⟨0x00, by norm_num⟩ ⟨0x80, by norm_num⟩ rfl rfl, h.2.2 (-1) (by simp)⟩


/-! ## C2 and C10 — enhancement request-token machine -/

/-- C2: for two overlapping enhancement requests A issued before B, a
response is applied only when its token equals the latest issued token, so
once B has been issued (token `st0.requestId + 2` after A's
`st0.requestId + 1`), A's response is discarded and never overwrites B's
result, in either arrival order; in general any response whose token is not
the latest leaves the state untouched. -/
theorem enhancement_stale_discarded (st0 st : EnhanceState) (rA rB r : String) (tok : Nat)
    (hstale : tok ≠ st.requestId) :
    (enhanceStep st (.success tok r) = st ∧ enhanceStep st (.failure tok r) = st) ∧
    (enhanceRun st0 [.issue, .issue,
      .success (st0.requestId + 2) rB, .success (st0.requestId + 1) rA]).processedEnhancedText
        = some rB ∧
    (enhanceRun st0 [.issue, .issue,
      .success (st0.requestId + 1) rA, .success (st0.requestId + 2) rB]).processedEnhancedText
        = some rB := by
  have hne : st0.requestId + 1 ≠ st0.requestId + 1 + 1 := by omega
  have hissue : enhanceStep (enhanceStep st0 .issue) .issue =
      (⟨st0.requestId + 1 + 1, none, true, st0.errorToastCount⟩ : EnhanceState) := rfl
  refine ⟨⟨by simp [enhanceStep, hstale], by simp [enhanceStep, hstale]⟩, ?_, ?_⟩
  · show (enhanceStep (enhanceStep (enhanceStep (enhanceStep st0 .issue) .issue)
      (.success (st0.requestId + 2) rB)) (.success (st0.requestId + 1) rA)).processedEnhancedText
        = some rB
    rw [hissue, show (st0.requestId + 2) = st0.requestId + 1 + 1 from by omega]
    rw [show enhanceStep (⟨st0.requestId + 1 + 1, none, true, st0.errorToastCount⟩ : EnhanceState)
        (.success (st0.requestId + 1 + 1) rB)
        = (⟨st0.requestId + 1 + 1, some rB, false, st0.errorToastCount⟩ : EnhanceState) from by
      simp [enhanceStep]]
    simp [enhanceStep, hne]
  · show (enhanceStep (enhanceStep (enhanceStep (enhanceStep st0 .issue) .issue)
      (.success (st0.requestId + 1) rA)) (.success (st0.requestId + 2) rB)).processedEnhancedText
        = some rB
    rw [hissue, show (st0.requestId + 2) = st0.requestId + 1 + 1 from by omega]
    rw [show enhanceStep (⟨st0.requestId + 1 + 1, none, true, st0.errorToastCount⟩ : EnhanceState)
        (.success (st0.requestId + 1) rA)
        = (⟨st0.requestId + 1 + 1, none, true, st0.errorToastCount⟩ : EnhanceState) from by
      simp [enhanceStep, hne]]
    simp [enhanceStep]

/-- Witness for C2: the theorem applied at a concrete machine (fresh
machine for the trace parts; a state with token 5 receiving a stale
response with token 3 for the general part). -/
theorem enhancement_stale_discarded_witness :
    (enhanceStep ⟨5, none, false, 0⟩ (.success 3 "c") = ⟨5, none, false, 0⟩ ∧
     enhanceStep ⟨5, none, false, 0⟩ (.failure 3 "c") = ⟨5, none, false, 0⟩) ∧
    (enhanceRun ⟨0, none, false, 0⟩ [.issue, .issue,
      .success 2 "b", .success 1 "a"]).processedEnhancedText = some "b" ∧
    (enhanceRun ⟨0, none, false, 0⟩ [.issue, .issue,
      .success 1 "a", .success 2 "b"]).processedEnhancedText = some "b" :=
  enhancement_stale_discarded ⟨0, none, false, 0⟩ ⟨5, none, false, 0⟩ "a" "b" "c" 3 (by decide)

/-- C10: a failing enhancement request that is still the latest issued one
writes the translated text captured for that request into the enhanced-text
slot (not leaving it empty), shows the error notice, and resets the loading
flag; a failing request that is no longer the latest changes nothing at
all. -/
theorem enhancement_failure_handling (st : EnhanceState) (tok tok2 : Nat)
    (cap cap2 : String) (hlatest : tok = st.requestId) (hstale : tok2 ≠ st.requestId) :
    enhanceStep st (.failure tok cap) =
      { st with
        processedEnhancedText := some cap
        isLoadingEnhancement := false
        errorToastCount := st.errorToastCount + 1 } ∧
    (enhanceStep st (.failure tok cap)).processedEnhancedText = some cap ∧
    (enhanceStep st (.failure tok cap)).isLoadingEnhancement = false ∧
    (enhanceStep st (.failure tok cap)).errorToastCount = st.errorToastCount + 1 ∧
    enhanceStep st (.failure tok2 cap2) = st := by
  subst hlatest
  refine ⟨by simp [enhanceStep], by simp [enhanceStep], by simp [enhanceStep],
    by simp [enhanceStep], by simp [enhanceStep, hstale]⟩

/-- Witness for C10: the theorem applied at a concrete loading machine with
latest token 4 (failing) and a stale token 9. -/
theorem enhancement_failure_handling_witness :
    enhanceStep ⟨4, none, true, 0⟩ (.failure 4 "t") = ⟨4, some "t", false, 1⟩ ∧
    (enhanceStep ⟨4, none, true, 0⟩ (.failure 4 "t")).processedEnhancedText = some "t" ∧
    (enhanceStep ⟨4, none, true, 0⟩ (.failure 4 "t")).isLoadingEnhancement = false ∧
    (enhanceStep ⟨4, none, true, 0⟩ (.failure 4 "t")).errorToastCount = 1 ∧
    enhanceStep ⟨4, none, true, 0⟩ (.failure 9 "u") = ⟨4, none, true, 0⟩ :=
  enhancement_failure_handling ⟨4, none, true, 0⟩ 4 9 "t" "u" rfl (by decide)


/-! ## C3, C5, C8 — translate guards, same-language shortcut, retranslation -/

theorem handleTranslateText_explicit (st : AppState) (text src tgt : String) :
    (handleTranslateText st (some text) (some src) (some tgt) = .networkCall text src tgt ↔
      trimmedEmpty text = false ∧ src ≠ tgt ∧
      st.isThrottled = false ∧ st.isTranslating = false) ∧
    (issuesNetworkCall (handleTranslateText st (some text) (some src) (some tgt)) = true ↔
      trimmedEmpty text = false ∧ src ≠ tgt ∧
      st.isThrottled = false ∧ st.isTranslating = false) := by
  simp only [handleTranslateText, Option.getD_some]
  split_ifs <;> simp_all [issuesNetworkCall]

/-- C3 counterexample: the claim "every `translate()` invocation within
2000 ms of a completed call performs no network call and surfaces a
throttled notice" is false as stated: in a throttled state whose source and
target languages are equal, the invocation takes the same-language shortcut
and shows no throttle notice. -/
theorem translate_throttle_counterexample :
    ¬ (∀ (st : AppState) (completedAt now : Nat),
        now < completedAt + THROTTLE_DURATION →
        st.isThrottled = isThrottledAt completedAt now →
        issuesNetworkCall (handleTranslateText st none none none) = false ∧
        showsThrottledToast (handleTranslateText st none none none) = true) := by
  intro h
  exact absurd (h throttledSameLangState 0 1000 (by decide) (by decide)).2 (by decide)

/-- C3 (amended): within the 2000 ms cool-down after a translation call
completes, a second `translate()` invocation never issues a network call;
it surfaces the distinct "throttled" notice exactly when its effective
source and target languages differ and its effective text is non-blank —
when the same-language shortcut or the empty-text guard applies instead,
the invocation is handled by those (still with no network call) and no
throttle notice appears. -/
theorem translate_throttle_window (st : AppState) (completedAt now : Nat)
    (optText optSrc optTgt : Option String)
    (h1 : now < completedAt + THROTTLE_DURATION)
    (h2 : st.isThrottled = isThrottledAt completedAt now) :
    issuesNetworkCall (handleTranslateText st optText optSrc optTgt) = false ∧
    (showsThrottledToast (handleTranslateText st optText optSrc optTgt) = true ↔
      optSrc.getD st.sourceLanguage ≠ optTgt.getD st.targetLanguage ∧
      trimmedEmpty (optText.getD st.sourceText) = false) ∧
    (optSrc.getD st.sourceLanguage ≠ optTgt.getD st.targetLanguage →
     trimmedEmpty (optText.getD st.sourceText) = false →
     handleTranslateText st optText optSrc optTgt = .throttledNotice) := by
  have hth : st.isThrottled = true := by
    rw [h2]
    exact decide_eq_true h1
  have hexact : optSrc.getD st.sourceLanguage ≠ optTgt.getD st.targetLanguage →
      trimmedEmpty (optText.getD st.sourceText) = false →
      handleTranslateText st optText optSrc optTgt = .throttledNotice := by
    intro hlang hne
    simp only [handleTranslateText]
    rw [if_neg hlang, if_neg (by rw [hne]; exact Bool.false_ne_true), if_pos hth]
  refine ⟨?_, ?_, hexact⟩
  · simp only [handleTranslateText]
    split_ifs <;> simp_all [issuesNetworkCall]
  · by_cases hlang : optSrc.getD st.sourceLanguage = optTgt.getD st.targetLanguage
    · simp only [handleTranslateText, if_pos hlang]
      by_cases hempty : trimmedEmpty (optText.getD st.sourceText)
      · rw [if_pos hempty]
        simp [showsThrottledToast, hlang]
      · rw [if_neg hempty]
        simp [showsThrottledToast, hlang]
    · by_cases hempty : trimmedEmpty (optText.getD st.sourceText)
      · simp only [handleTranslateText, if_neg hlang]
        rw [if_pos hempty]
        simp [showsThrottledToast, hempty]
      · rw [hexact hlang (by simpa using hempty)]
        exact iff_of_true rfl ⟨hlang, by simpa using hempty⟩

/-- Witness for C3: the amended theorem applied 1000 ms after a completion,
in a throttled state with languages en→vi and text "hello": no network
call, and the throttled notice shown exactly under the amended condition,
which holds there. -/
theorem translate_throttle_window_witness :
    issuesNetworkCall (handleTranslateText throttledStateC8 none none none) = false ∧
    (showsThrottledToast (handleTranslateText throttledStateC8 none none none) = true ↔
      throttledStateC8.sourceLanguage ≠ throttledStateC8.targetLanguage ∧
      trimmedEmpty throttledStateC8.sourceText = false) ∧
    handleTranslateText throttledStateC8 none none none = .throttledNotice := by
  have h := translate_throttle_window throttledStateC8 0 1000 none none none
    (by decide) (by decide)
  exact ⟨h.1, h.2.1, h.2.2 (by decide) (by decide)⟩

/-- C5: with equal source and target language codes, invoking translate
sets translatedText to an exact copy of the source text when its trimmed
form is non-empty, to the empty string when the source text is empty or
whitespace-only, and performs no network call in either case. -/
theorem translate_same_language (st : AppState)
    (h : st.sourceLanguage = st.targetLanguage) :
    issuesNetworkCall (handleTranslateText st none none none) = false ∧
    (applyOutcome st (handleTranslateText st none none none)).translatedText =
      (if trimmedEmpty st.sourceText then "" else st.sourceText) := by
  simp only [handleTranslateText, Option.getD_none, if_pos h]
  by_cases he : trimmedEmpty st.sourceText
  · simp [he, issuesNetworkCall, applyOutcome]
  · simp [he, issuesNetworkCall, applyOutcome]

/-- Witness for C5: the theorem applied at a concrete en→en state with
source text "hello". -/
theorem translate_same_language_witness :
    issuesNetworkCall (handleTranslateText throttledSameLangState none none none) = false ∧
    (applyOutcome throttledSameLangState
        (handleTranslateText throttledSameLangState none none none)).translatedText =
      (if trimmedEmpty throttledSameLangState.sourceText then ""
       else throttledSameLangState.sourceText) :=
  translate_same_language throttledSameLangState rfl

/-- C8 counterexample: the claim "the only conditions that block the
retranslation call on a language change are the same-language shortcut and
an empty source text" is false as stated: in a throttled en→vi state with
non-blank text "hello", changing the source language to "fr" issues no
translation call (the throttle blocks it). -/
theorem language_change_counterexample :
    ¬ (∀ (st : AppState) (lang : String),
        lang ≠ st.targetLanguage → trimmedEmpty st.sourceText = false →
        (handleSourceLanguageChange st lang).2 =
          some (.networkCall st.sourceText lang st.targetLanguage)) := by
  intro h
  exact absurd (h throttledStateC8 "fr" (by decide) (by decide)) (by decide)

/-- C8 (amended): a source- or target-language change retranslates with the
just-updated language and the current text; the network call is issued
exactly when the text is non-blank, the updated language pair is distinct,
the throttle window is inactive and no translation is in flight — these
four guards are the only blockers — and when issued it carries the new
language paired with the current text (not the previous state). -/
theorem language_change_retranslates (st : AppState) (lang : String) :
    (langChangeIssuesCall (handleSourceLanguageChange st lang) = true ↔
      trimmedEmpty st.sourceText = false ∧ lang ≠ st.targetLanguage ∧
      st.isThrottled = false ∧ st.isTranslating = false) ∧
    (langChangeIssuesCall (handleTargetLanguageChange st lang) = true ↔
      trimmedEmpty st.sourceText = false ∧ st.sourceLanguage ≠ lang ∧
      st.isThrottled = false ∧ st.isTranslating = false) ∧
    (trimmedEmpty st.sourceText = false → lang ≠ st.targetLanguage →
      st.isThrottled = false → st.isTranslating = false →
      (handleSourceLanguageChange st lang).2 =
        some (.networkCall st.sourceText lang st.targetLanguage)) ∧
    (trimmedEmpty st.sourceText = false → st.sourceLanguage ≠ lang →
      st.isThrottled = false → st.isTranslating = false →
      (handleTargetLanguageChange st lang).2 =
        some (.networkCall st.sourceText st.sourceLanguage lang)) := by
  refine ⟨?_, ?_, ?_, ?_⟩
  · by_cases h1 : trimmedEmpty st.sourceText = false
    · simp only [handleSourceLanguageChange, if_pos h1, langChangeIssuesCall]
      have := (handleTranslateText_explicit { st with sourceLanguage := lang }
        st.sourceText lang st.targetLanguage).2
      simp only at this
      rw [this]
    · simp only [handleSourceLanguageChange, if_neg h1, langChangeIssuesCall]
      simp_all
  · by_cases h1 : trimmedEmpty st.sourceText = false
    · simp only [handleTargetLanguageChange, if_pos h1, langChangeIssuesCall]
      have := (handleTranslateText_explicit { st with targetLanguage := lang }
        st.sourceText st.sourceLanguage lang).2
      simp only at this
      rw [this]
    · simp only [handleTargetLanguageChange, if_neg h1, langChangeIssuesCall]
      simp_all
  · intro h1 h2 h3 h4
    simp only [handleSourceLanguageChange, if_pos h1]
    have := (handleTranslateText_explicit { st with sourceLanguage := lang }
      st.sourceText lang st.targetLanguage).1
    simp only at this
    rw [this.mpr ⟨h1, h2, h3, h4⟩]
  · intro h1 h2 h3 h4
    simp only [handleTargetLanguageChange, if_pos h1]
    have := (handleTranslateText_explicit { st with targetLanguage := lang }
      st.sourceText st.sourceLanguage lang).1
    simp only at this
    rw [this.mpr ⟨h1, h2, h3, h4⟩]

/-- Witness for C8: the amended theorem applied at the unthrottled en→vi
swap-scenario state, changing the source language and then the target
language to "fr". -/
theorem language_change_retranslates_witness :
    (handleSourceLanguageChange swapScenarioState "fr").2 =
      some (.networkCall swapScenarioState.sourceText "fr" swapScenarioState.targetLanguage) ∧
    (handleTargetLanguageChange swapScenarioState "fr").2 =
      some (.networkCall swapScenarioState.sourceText swapScenarioState.sourceLanguage "fr") := by
  have h := language_change_retranslates swapScenarioState "fr"
  exact ⟨h.2.2.1 (by decide) (by decide) (by decide) (by decide),
    h.2.2.2 (by decide) (by decide) (by decide) (by decide)⟩


/-! ## C4 — word-limit enforcement across entry paths -/

set_option maxRecDepth 8000 in
/-- C4 counterexample: the claim "for every text over 500 words and every
entry path a user notice is raised" is false as stated: `newC4` has
501 > 500 words, yet entering it through the typing path over the 500-word
`prevC4` (newC4 is shorter in characters and the previous count already
reached the limit) truncates without raising the notice. -/
theorem word_limit_counterexample :
    countWords newC4 > WORD_LIMIT ∧
    (handleSourceTextChange prevStateC4 newC4).toastWordLimit = false := by
  constructor
  · rw [countWords_newC4]
    norm_num [WORD_LIMIT]
  · have hlen : ¬ (newC4.length > prevStateC4.sourceText.length) := by
      show ¬ (newC4.length > prevC4.length)
      rw [length_newC4, length_prevC4]
      omega
    have hcw : ¬ (countWords prevStateC4.sourceText < WORD_LIMIT) := by
      show ¬ (countWords prevC4 < WORD_LIMIT)
      rw [countWords_prevC4]
      norm_num [WORD_LIMIT]
    show ((applyWordLimit newC4).truncated &&
      (decide (newC4.length > prevStateC4.sourceText.length) ||
       decide (countWords prevStateC4.sourceText < WORD_LIMIT))) = false
    rw [decide_eq_false hlen, decide_eq_false hcw]
    simp

/-- C4 (amended): every entry path stores, for a text over the word limit,
exactly the first 500 whitespace-delimited tokens rejoined with single
spaces with a stored count of 500, and stores shorter texts unchanged with
their exact count (blank texts counting zero words); the truncation notice
always fires on the transcription and swap paths, while on the typing path
it fires exactly when additionally the new text is longer than the previous
text or the previous word count was still below the limit. -/
theorem word_limit_enforcement (st : AppState) (text : String) :
    (countWords text > WORD_LIMIT →
      applyWordLimit text =
        ⟨String.intercalate " " ((wsTokens text).take WORD_LIMIT), WORD_LIMIT, true⟩) ∧
    (countWords text ≤ WORD_LIMIT → applyWordLimit text = ⟨text, countWords text, false⟩) ∧
    (trimmedEmpty text = true → countWords text = 0) ∧
    ((handleTranscription st text).1.sourceText = (applyWordLimit text).text ∧
     (handleTranscription st text).1.sourceWordCount = (applyWordLimit text).wordCount ∧
     (handleTranscription st text).2 = (applyWordLimit text).truncated) ∧
    ((handleSwapLanguages st).toastWordLimit = (applyWordLimit st.translatedText).truncated) ∧
    ((handleSourceTextChange st text).state.sourceText = (applyWordLimit text).text ∧
     (handleSourceTextChange st text).state.sourceWordCount = (applyWordLimit text).wordCount ∧
     ((handleSourceTextChange st text).toastWordLimit = true ↔
       (applyWordLimit text).truncated = true ∧
       (text.length > st.sourceText.length ∨ countWords st.sourceText < WORD_LIMIT))) := by
  refine ⟨?_, ?_, countWords_of_trimmedEmpty text, ⟨rfl, rfl, rfl⟩, ?_, ?_, ?_, ?_⟩
  · intro h
    have h' : (wsTokens text).length > WORD_LIMIT := h
    simp only [applyWordLimit]
    rw [if_pos h']
  · intro h
    have h' : ¬ ((wsTokens text).length > WORD_LIMIT) := by
      have he : (wsTokens text).length = countWords text := rfl
      omega
    simp only [applyWordLimit]
    rw [if_neg h']
    rfl
  · simp only [handleSwapLanguages]
    split_ifs <;> rfl
  · simp only [handleSourceTextChange]
    split_ifs <;> rfl
  · simp only [handleSourceTextChange]
    split_ifs <;> rfl
  · show ((applyWordLimit text).truncated &&
      (decide (text.length > st.sourceText.length) ||
       decide (countWords st.sourceText < WORD_LIMIT))) = true ↔ _
    rw [Bool.and_eq_true, Bool.or_eq_true, decide_eq_true_eq, decide_eq_true_eq]

/-- Witness for C4: the amended theorem applied to the 501-word `newC4`
(truncation), to the two-word text "a b" (stored unchanged), and to a
whitespace-only text (zero words). -/
theorem word_limit_enforcement_witness :
    applyWordLimit newC4 =
      ⟨String.intercalate " " ((wsTokens newC4).take WORD_LIMIT), WORD_LIMIT, true⟩ ∧
    applyWordLimit "a b" = ⟨"a b", countWords "a b", false⟩ ∧
    countWords "  " = 0 :=
  ⟨(word_limit_enforcement prevStateC4 newC4).1
      (by rw [countWords_newC4]; norm_num [WORD_LIMIT]),
   (word_limit_enforcement prevStateC4 "a b").2.1 (by decide),
   (word_limit_enforcement prevStateC4 "  ").2.2.1 (by decide)⟩

/-! ## C6 — language and text swap -/

theorem applyOutcome_sourceLanguage (st : AppState) (o : TranslateOutcome) :
    (applyOutcome st o).sourceLanguage = st.sourceLanguage := by
  cases o <;> rfl

theorem applyOutcome_targetLanguage (st : AppState) (o : TranslateOutcome) :
    (applyOutcome st o).targetLanguage = st.targetLanguage := by
  cases o <;> rfl

theorem applyOutcome_sourceText (st : AppState) (o : TranslateOutcome) :
    (applyOutcome st o).sourceText = st.sourceText := by
  cases o <;> rfl

theorem applyOutcome_sourceWordCount (st : AppState) (o : TranslateOutcome) :
    (applyOutcome st o).sourceWordCount = st.sourceWordCount := by
  cases o <;> rfl

/-- C6: swapLanguages exchanges the two language codes, moves the current
translated text into the source slot with the word limit re-applied, and
triggers translation with the post-swap languages and the moved text
whenever that text is non-blank and the swapped languages differ (in an
idle, unthrottled state the network request is issued); in the spec
scenario — en→vi, translatedText "xin chào", idle — the post-swap state is
vi→en with sourceText "xin chào" and the request body is
("xin chào", "vi", "en"). -/
theorem swap_languages (st : AppState) :
    ((handleSwapLanguages st).state.sourceLanguage = st.targetLanguage ∧
     (handleSwapLanguages st).state.targetLanguage = st.sourceLanguage ∧
     (handleSwapLanguages st).state.sourceText = (applyWordLimit st.translatedText).text ∧
     (handleSwapLanguages st).state.sourceWordCount =
       (applyWordLimit st.translatedText).wordCount) ∧
    (trimmedEmpty (applyWordLimit st.translatedText).text = false →
     st.targetLanguage ≠ st.sourceLanguage →
     st.isThrottled = false → st.isTranslating = false →
     (handleSwapLanguages st).translateCall =
       some (.networkCall (applyWordLimit st.translatedText).text
         st.targetLanguage st.sourceLanguage)) ∧
    ((handleSwapLanguages swapScenarioState).state.sourceLanguage = "vi" ∧
     (handleSwapLanguages swapScenarioState).state.targetLanguage = "en" ∧
     (handleSwapLanguages swapScenarioState).state.sourceText = "xin chào" ∧
     (handleSwapLanguages swapScenarioState).translateCall =
       some (.networkCall "xin chào" "vi" "en")) := by
  refine ⟨?_, ?_, by decide⟩
  · simp only [handleSwapLanguages]
    split_ifs <;>
      simp [applyOutcome_sourceLanguage, applyOutcome_targetLanguage,
        applyOutcome_sourceText, applyOutcome_sourceWordCount]
  · intro h1 h2 h3 h4
    simp only [handleSwapLanguages]
    rw [if_pos ⟨h1, h2⟩]
    have := (handleTranslateText_explicit
      { st with
        sourceLanguage := st.targetLanguage
        targetLanguage := st.sourceLanguage
        sourceText := (applyWordLimit st.translatedText).text
        sourceWordCount := (applyWordLimit st.translatedText).wordCount }
      (applyWordLimit st.translatedText).text st.targetLanguage st.sourceLanguage).1
    simp only at this
    rw [this.mpr ⟨h1, h2, h3, h4⟩]

/-- Witness for C6: the theorem applied at the concrete spec scenario
state. -/
theorem swap_languages_witness :
    (handleSwapLanguages swapScenarioState).translateCall =
      some (.networkCall (applyWordLimit swapScenarioState.translatedText).text
        swapScenarioState.targetLanguage swapScenarioState.sourceLanguage) :=
  (swap_languages swapScenarioState).2.1 (by decide) (by decide) (by decide) (by decide)

/-! ## C7 and C9 — word-definition lookup and cache -/

theorem dropWhile_of_all_not (p : Char → Bool) (l : List Char)
    (h : l.all (fun c => !(p c))) : l.dropWhile p = l := by
  cases l with
  | nil => rfl
  | cons c cs =>
      simp only [List.all_cons, Bool.and_eq_true, Bool.not_eq_true'] at h
      simp [List.dropWhile, h.1]

theorem trimChars_of_all_not_ws (l : List Char) (h : l.all (fun c => !(isWs c))) :
    trimChars l = l := by
  unfold trimChars
  rw [dropWhile_of_all_not isWs l h,
    dropWhile_of_all_not isWs l.reverse (by simpa using h)]
  simp

theorem clickable_not_blank (w : String) (h : isClickableWord w = true) :
    trimmedEmpty w = false ∧ w.data ≠ [] := by
  unfold isClickableWord at h
  rw [Bool.and_eq_true] at h
  obtain ⟨hall, hne⟩ := h
  rw [Bool.not_eq_true'] at hne
  refine ⟨hne, ?_⟩
  intro hnil
  unfold trimmedEmpty at hne
  rw [hnil] at hne
  simp at hne

theorem cleanWord_clickable (w : String) (h : isClickableWord w = true) :
    cleanWord w = String.mk (w.data.map Char.toLower) ∧ cleanWord w ≠ "" := by
  have hblank := clickable_not_blank w h
  unfold isClickableWord at h
  rw [Bool.and_eq_true] at h
  obtain ⟨hall, -⟩ := h
  have hnp : ∀ c ∈ w.data, (fun c => !(isPunct c)) c = true := by
    intro c hc
    have hcc := List.all_eq_true.mp hall c hc
    rw [Bool.and_eq_true] at hcc
    exact hcc.2
  have hnw : w.data.all (fun c => !(isWs c)) = true := by
    rw [List.all_eq_true]
    intro c hc
    have hcc := List.all_eq_true.mp hall c hc
    rw [Bool.and_eq_true] at hcc
    exact hcc.1
  have hfilter : w.data.filter (fun c => !(isPunct c)) = w.data :=
    List.filter_eq_self.mpr hnp
  unfold cleanWord
  rw [hfilter, trimChars_of_all_not_ws w.data hnw]
  refine ⟨rfl, ?_⟩
  intro heq
  have : (w.data.map Char.toLower) = [] := by
    have := congrArg String.data heq
    simpa using this
  rw [List.map_eq_nil_iff] at this
  exact hblank.2 this

/-- C7: definition lookup case-folds the clicked word (for clickable words
the punctuation strip is the identity, since the panel splits words on the
same punctuation class) and keys the cache by the normalized word and the
language; a cache hit returns the cached record with no network call and no
cache change; a miss issues one request whose successful result — with the
`ipaPronunciation` defaulting applied — is stored under the same key, so
looking the same word and language up twice issues exactly one network
call, with the second lookup served from the cache. -/
theorem word_definition_cache (cache c2 : WordDetailCache) (word lang : String)
    (d d' : WordDetails) (resp2 : Except String WordDetails)
    (hclick : isClickableWord word = true)
    (hmiss : List.lookup (cacheKey (cleanWord word) lang) cache = none)
    (hhit : List.lookup (cacheKey (cleanWord word) lang) c2 = some d') :
    cleanWord word = String.mk (word.data.map Char.toLower) ∧
    handleWordDefinition c2 word lang resp2 = (.cacheHit d', c2) ∧
    handleWordDefinition cache word lang (.ok d) =
      (.fetchedStored (withDefaultIpa d),
       (cacheKey (cleanWord word) lang, withDefaultIpa d) :: cache) ∧
    handleWordDefinition
        (handleWordDefinition cache word lang (.ok d)).2 word lang resp2 =
      (.cacheHit (withDefaultIpa d), (handleWordDefinition cache word lang (.ok d)).2) ∧
    lookupNetworkCalled (handleWordDefinition cache word lang (.ok d)).1 = true ∧
    lookupNetworkCalled (handleWordDefinition
      (handleWordDefinition cache word lang (.ok d)).2 word lang resp2).1 = false := by
  obtain ⟨hblank, -⟩ := clickable_not_blank word hclick
  obtain ⟨hlower, hnonempty⟩ := cleanWord_clickable word hclick
  have hfirst : handleWordDefinition cache word lang (.ok d) =
      (.fetchedStored (withDefaultIpa d),
       (cacheKey (cleanWord word) lang, withDefaultIpa d) :: cache) := by
    simp only [handleWordDefinition]
    rw [if_neg (by rw [hblank]; exact Bool.false_ne_true), if_neg hnonempty, hmiss]
  have hsecond : handleWordDefinition
      (handleWordDefinition cache word lang (.ok d)).2 word lang resp2 =
      (.cacheHit (withDefaultIpa d), (handleWordDefinition cache word lang (.ok d)).2) := by
    rw [hfirst]
    simp only [handleWordDefinition]
    rw [if_neg (by rw [hblank]; exact Bool.false_ne_true), if_neg hnonempty]
    rw [List.lookup_cons_self]
  refine ⟨hlower, ?_, hfirst, hsecond, ?_, ?_⟩
  · simp only [handleWordDefinition]
    rw [if_neg (by rw [hblank]; exact Bool.false_ne_true), if_neg hnonempty, hhit]
  · rw [hfirst]
    rfl
  · rw [hsecond]
    rfl

/-- Witness for C7: the theorem applied to the clicked word "Hello" in
language "en", with an empty initial cache, the concrete record `dHello`,
and a second-response oracle that would fail. -/
theorem word_definition_cache_witness :
    handleWordDefinition ([] : WordDetailCache) "Hello" "en" (.ok dHello) =
      (.fetchedStored (withDefaultIpa dHello),
       [("hello_en", withDefaultIpa dHello)]) ∧
    handleWordDefinition
        (handleWordDefinition ([] : WordDetailCache) "Hello" "en" (.ok dHello)).2
        "Hello" "en" (.error "boom") =
      (.cacheHit (withDefaultIpa dHello),
       (handleWordDefinition ([] : WordDetailCache) "Hello" "en" (.ok dHello)).2) ∧
    lookupNetworkCalled
      (handleWordDefinition ([] : WordDetailCache) "Hello" "en" (.ok dHello)).1 = true ∧
    lookupNetworkCalled (handleWordDefinition
      (handleWordDefinition ([] : WordDetailCache) "Hello" "en" (.ok dHello)).2
      "Hello" "en" (.error "boom")).1 = false := by
  have h := word_definition_cache ([] : WordDetailCache)
    [("hello_en", withDefaultIpa dHello)] "Hello" "en" dHello (withDefaultIpa dHello)
    (.error "boom") (by decide) (by decide) (by decide)
  exact ⟨h.2.2.1, h.2.2.2.1, h.2.2.2.2.1, h.2.2.2.2.2⟩

/-- C9: a failed definition lookup leaves the cache unchanged — the
synthetic failure record shown in the definition slot is never written to
it — so a subsequent lookup of the same word and language issues the network
request again; only successful responses are ever stored. -/
theorem word_definition_failure_not_cached (cache : WordDetailCache)
    (word lang desc : String) (resp2 : Except String WordDetails)
    (hclick : isClickableWord word = true)
    (hmiss : List.lookup (cacheKey (cleanWord word) lang) cache = none) :
    handleWordDefinition cache word lang (.error desc) =
      (.fetchFailed (syntheticRecord (cleanWord word) desc), cache) ∧
    (handleWordDefinition cache word lang (.error desc)).2 = cache ∧
    lookupNetworkCalled (handleWordDefinition cache word lang (.error desc)).1 = true ∧
    lookupNetworkCalled (handleWordDefinition
      (handleWordDefinition cache word lang (.error desc)).2 word lang resp2).1 = true := by
  obtain ⟨hblank, -⟩ := clickable_not_blank word hclick
  obtain ⟨-, hnonempty⟩ := cleanWord_clickable word hclick
  have hfail : handleWordDefinition cache word lang (.error desc) =
      (.fetchFailed (syntheticRecord (cleanWord word) desc), cache) := by
    simp only [handleWordDefinition]
    rw [if_neg (by rw [hblank]; exact Bool.false_ne_true), if_neg hnonempty, hmiss]
  refine ⟨hfail, by rw [hfail], by rw [hfail]; rfl, ?_⟩
  rw [hfail]
  simp only [handleWordDefinition]
  rw [if_neg (by rw [hblank]; exact Bool.false_ne_true), if_neg hnonempty, hmiss]
  cases resp2 <;> rfl

/-- Witness for C9: the theorem applied to the clicked word "Hello" in
language "en" with an empty cache, a failing first response and a failing
retry. -/
theorem word_definition_failure_not_cached_witness :
    handleWordDefinition ([] : WordDetailCache) "Hello" "en" (.error "down") =
      (.fetchFailed (syntheticRecord (cleanWord "Hello") "down"), []) ∧
    (handleWordDefinition ([] : WordDetailCache) "Hello" "en" (.error "down")).2 = [] ∧
    lookupNetworkCalled
      (handleWordDefinition ([] : WordDetailCache) "Hello" "en" (.error "down")).1 = true ∧
    lookupNetworkCalled (handleWordDefinition
      (handleWordDefinition ([] : WordDetailCache) "Hello" "en" (.error "down")).2
      "Hello" "en" (.error "still down")).1 = true :=
  word_definition_failure_not_cached ([] : WordDetailCache) "Hello" "en" "down"
    (.error "still down") (by decide) (by decide)

end BlessClient
